import Mathlib

/-!
Shallow embedding of the message-routing layer of `components/rfstore`
(`src/components/rfstore/src/router.rs`): the `RaftRouter` with its
concurrent region table and two channels, the lifecycle operations
`register`/`close`, the per-region `send` fast path, the trait-level
helpers (`significant_send`, `send_raft_msg`, `broadcast_normal`,
`send_command_impl`) and the null router `RaftStoreBlackHole`.

Machine state (the dashmap of peers and the two channel queues) is made
explicit: the dashmap becomes an association list with unique keys, a
channel becomes the list of messages enqueued on it so far, and every
operation returns its result together with the updated state.  The
stateful `FnMut` message generator of `broadcast_normal` becomes an
explicit state-passing function `σ → PeerMsg × σ`.
-/

/-! ## Data model

Message and peer types referenced by `router.rs` live in `crate::store`
and `kvproto`, outside the sources given here; they are embedded as
plain records carrying exactly the fields `router.rs` reads, with
payloads kept as opaque naturals. -/

/-- Region epoch, of which `router.rs` reads only the version
(`get_region_epoch().get_version()`). -/
structure RegionEpoch where
  version : Nat
deriving DecidableEq, Repr

/-- A region: `router.rs` reads its `id` and its epoch. -/
structure Region where
  id : Nat
  region_epoch : RegionEpoch
deriving DecidableEq, Repr

/-- Modelled from the spec: the peer record lives in `crate::store`, not
under the given sources.  `router.rs` reads `peer.region()` (register),
`peer.peer_id()` (register) and `peer.region_id` (close); per the spec a
region identifier is "stable for the shard's lifetime" and per-region
state is keyed by it, so `region_id` is the identifier of the peer's
region. -/
structure Peer where
  region : Region
  peer_id : Nat
deriving DecidableEq, Repr

/-- Embeds `peer.region_id`, the field `close` reads; it is the peer's region's
identifier. -/
def Peer.region_id (p : Peer) : Nat := p.region.id

/-- The peer finite state machine; `router.rs` only reaches through it to
the peer data. -/
structure PeerFsm where
  peer : Peer
deriving DecidableEq, Repr

/-- Modelled from the spec: the applier lives in `crate::store`; the spec
says it is "derived from the replica at registration time".  We keep the
identifier of the region it was derived for. -/
structure Applier where
  region_id : Nat
deriving DecidableEq, Repr

/-- Embeds `Applier::new_from_peer`, modelled from the spec: derives the applier
from the peer at registration time. -/
def Applier.new_from_peer (p : PeerFsm) : Applier :=
  ⟨p.peer.region.id⟩

/-- Per-region state stored in the routing table: the atomic `closed`
liveness flag, the mutex-protected peer fsm, and the applier. -/
structure PeerStates where
  closed : Bool
  peer_fsm : PeerFsm
  apply_fsm : Applier
deriving DecidableEq, Repr

/-- Modelled from the spec: `PeerStates::new` lives in `crate::store`;
per the spec, registration "constructs Per-Region State (applier + peer +
fresh liveness flag = open)", so the flag starts unset. -/
def PeerStates.new (applier : Applier) (peer : PeerFsm) : PeerStates :=
  { closed := false, peer_fsm := peer, apply_fsm := applier }

/-- A decoded Raft network message; `router.rs` reads only its region id
(`msg.get_region_id()`). -/
structure RaftMessage where
  region_id : Nat
  payload : Nat
deriving DecidableEq, Repr

/-- Significant messages; `router.rs` constructs `StoreUnreachable`, the
rest are opaque. -/
inductive SignificantMsg where
  | StoreUnreachable (store_id : Nat)
  | Other (tag : Nat)
deriving DecidableEq, Repr

/-- Casual per-region message, opaque to the router. -/
structure CasualMessage where
  tag : Nat
deriving DecidableEq, Repr

/-- Store-wide messages; `router.rs` constructs `StoreUnreachable`, the
rest are opaque. -/
inductive StoreMsg where
  | StoreUnreachable (store_id : Nat)
  | Other (tag : Nat)
deriving DecidableEq, Repr

/-- A client command request; the proposal path routes it by the region
identifier in its header. -/
structure RaftCmdRequest where
  region_id : Nat
  data : Nat
deriving DecidableEq, Repr

/-- An owned single-invocation completion callback, opaque to the
router, which never invokes it. -/
structure Callback where
  id : Nat
deriving DecidableEq, Repr

/-- A proposal deadline, opaque to the router. -/
structure Deadline where
  instant : Nat
deriving DecidableEq, Repr

/-- A Raft command: request plus callback, optionally carrying a
deadline. -/
structure RaftCommand where
  request : RaftCmdRequest
  callback : Callback
  deadline : Option Deadline
deriving DecidableEq, Repr

/-- Modelled from the spec: `RaftCommand::new` lives in `crate::store`.
It receives only the request and the callback, so the constructed
command carries no deadline. -/
def RaftCommand.new (req : RaftCmdRequest) (cb : Callback) : RaftCommand :=
  { request := req, callback := cb, deadline := none }

/-- The peer message union addressed to one region. -/
inductive PeerMsg where
  | RaftMessage (msg : RaftMessage)
  | SignificantMsg (msg : SignificantMsg)
  | CasualMessage (msg : CasualMessage)
  | RaftCommand (cmd : RaftCommand)
deriving DecidableEq, Repr

/-- The sole routing-layer error: `Error::RegionNotFound(region_id,
Option<message>)`, carrying back the undelivered payload. -/
inductive RaftStoreError where
  | RegionNotFound (region_id : Nat) (msg : Option PeerMsg)
deriving DecidableEq, Repr

/-- Embeds `RaftStoreResult<()>`. -/
abbrev RaftStoreResult := Except RaftStoreError Unit

/-! ## The routing table

`dashmap::DashMap<u64, PeerStates>` is embedded as an association list
with unique keys; `get` is first-match lookup, `insert` replaces any
existing entry for the key, `remove` deletes the key's entry.  Iteration
order of the dashmap is unspecified, so nothing below depends on the
order of the list beyond per-entry facts. -/

/-- Embeds `DashMap::get`. -/
def peersGet (ps : List (Nat × PeerStates)) (id : Nat) : Option PeerStates :=
  (ps.find? (fun e => e.fst == id)).map Prod.snd

/-- Embeds `DashMap::remove`. -/
def peersRemove (ps : List (Nat × PeerStates)) (id : Nat) : List (Nat × PeerStates) :=
  ps.filter (fun e => e.fst != id)

/-- Embeds `DashMap::insert`: replaces any existing entry for the key. -/
def peersInsert (ps : List (Nat × PeerStates)) (id : Nat) (v : PeerStates) :
    List (Nat × PeerStates) :=
  (id, v) :: peersRemove ps id

/-- Mark the entry stored under `id` closed (`peer.closed.store(true)`),
leaving the rest of the table unchanged. -/
def peersSetClosed (ps : List (Nat × PeerStates)) (id : Nat) : List (Nat × PeerStates) :=
  ps.map (fun e => if e.fst == id then (e.fst, { e.snd with closed := true }) else e)

/-! ## The router -/

/-- Embeds `RaftRouter`: the store channel, the region table, and the shared
per-region channel.  A channel is embedded as the list of messages
enqueued on it so far, oldest first. -/
structure RaftRouter where
  store_sender : List StoreMsg
  peers : List (Nat × PeerStates)
  peer_sender : List (Nat × PeerMsg)
deriving DecidableEq, Repr

namespace RaftRouter

/-- Embeds `RaftRouter::new`: fresh empty table over the given channels. -/
def new (peer_sender : List (Nat × PeerMsg)) (store_sender : List StoreMsg) : RaftRouter :=
  { store_sender := store_sender, peers := [], peer_sender := peer_sender }

/-- Embeds `RaftRouter::get`. -/
def get (r : RaftRouter) (region_id : Nat) : Option PeerStates :=
  peersGet r.peers region_id

/-- Embeds `RaftRouter::register`: build the applier and per-region state from
the peer and insert it keyed by the peer's region identifier. -/
def register (r : RaftRouter) (peer : PeerFsm) : RaftRouter :=
  let id := peer.peer.region.id
  let applier := Applier.new_from_peer peer
  let new_peer := PeerStates.new applier peer
  { r with peers := peersInsert r.peers id new_peer }

/-- Embeds `RaftRouter::close`: if the entry is present, store `true` into its
`closed` flag, then remove the entry keyed by the region identifier read
back from the stored peer fsm (`peer.peer_fsm.lock().unwrap().peer.region_id`). -/
def close (r : RaftRouter) (id : Nat) : RaftRouter :=
  match peersGet r.peers id with
  | some peer =>
      let marked := peersSetClosed r.peers id
      { r with peers := peersRemove marked peer.peer_fsm.peer.region_id }
  | none => r

/-- Embeds `RaftRouter::send`: look the region up; if present and not closed,
enqueue `(id, msg)` on the shared per-region channel and return `Ok`;
otherwise return `RegionNotFound(id, Some(msg))`. -/
def send (r : RaftRouter) (id : Nat) (msg : PeerMsg) : RaftStoreResult × RaftRouter :=
  match peersGet r.peers id with
  | some peer =>
      if !peer.closed then
        (Except.ok (), { r with peer_sender := r.peer_sender ++ [(id, msg)] })
      else
        (Except.error (RaftStoreError.RegionNotFound id (some msg)), r)
  | none => (Except.error (RaftStoreError.RegionNotFound id (some msg)), r)

/-- Embeds `RaftRouter::send_store`: enqueue on the store channel. -/
def send_store (r : RaftRouter) (msg : StoreMsg) : RaftRouter :=
  { r with store_sender := r.store_sender ++ [msg] }

/-- Embeds `RaftStoreRouter::send_raft_msg` for `RaftRouter`: derive the region
id from the message and send it wrapped as a peer message. -/
def send_raft_msg (r : RaftRouter) (msg : RaftMessage) : RaftStoreResult × RaftRouter :=
  let region_id := msg.region_id
  let raft_msg := PeerMsg.RaftMessage msg
  r.send region_id raft_msg

/-- Embeds `RaftStoreRouter::significant_send` for `RaftRouter`: wrap as a peer
message and send. -/
def significant_send (r : RaftRouter) (region_id : Nat) (msg : SignificantMsg) :
    RaftStoreResult × RaftRouter :=
  let m := PeerMsg.SignificantMsg msg
  r.send region_id m

/-- The loop body of `broadcast_normal`: walk the table entries, invoke
the stateful generator once per entry, and enqueue each produced message
keyed by that entry's region identifier. -/
def broadcastGo {σ : Type} (gen : σ → PeerMsg × σ) :
    List (Nat × PeerStates) → List (Nat × PeerMsg) → σ → List (Nat × PeerMsg) × σ
  | [], sent, s => (sent, s)
  | e :: rest, sent, s =>
      let p := gen s
      broadcastGo gen rest (sent ++ [(e.fst, p.fst)]) p.snd

/-- Embeds `RaftStoreRouter::broadcast_normal` for `RaftRouter`: for every entry
currently in the table, invoke `msg_gen` and enqueue the produced
message to that region.  The `FnMut` generator is embedded as a
state-passing function; the final generator state is returned. -/
def broadcast_normal {σ : Type} (r : RaftRouter) (gen : σ → PeerMsg × σ) (s : σ) :
    RaftRouter × σ :=
  let p := broadcastGo gen r.peers r.peer_sender s
  ({ r with peer_sender := p.fst }, p.snd)

end RaftRouter

/-- Modelled from the spec: `impl ProposalRouter for RaftRouter` lives
outside the given sources; per the spec, proposal send "deliver[s] a
`(request, callback)` pair to the target region's message path" with the
same failure semantics as any per-region send, the target being the
region named by the request. -/
def RaftRouter.proposal_send (r : RaftRouter) (cmd : RaftCommand) :
    RaftStoreResult × RaftRouter :=
  r.send cmd.request.region_id (PeerMsg.RaftCommand cmd)

/-- Embeds `send_command_impl`: build the command from the request and callback
and hand it to the proposal-send path.  The `deadline` argument is not
used by the source (`// TODO(x) handle deadline`). -/
def send_command_impl (r : RaftRouter) (req : RaftCmdRequest) (cb : Callback)
    (_deadline : Option Deadline) : RaftStoreResult × RaftRouter :=
  let cmd := RaftCommand.new req cb
  r.proposal_send cmd

/-- Embeds `RaftStoreRouter::send_command`. -/
def RaftRouter.send_command (r : RaftRouter) (req : RaftCmdRequest) (cb : Callback) :
    RaftStoreResult × RaftRouter :=
  send_command_impl r req cb none

/-- Embeds `RaftStoreRouter::send_command_with_deadline`. -/
def RaftRouter.send_command_with_deadline (r : RaftRouter) (req : RaftCmdRequest)
    (cb : Callback) (deadline : Deadline) : RaftStoreResult × RaftRouter :=
  send_command_impl r req cb (some deadline)

/-! ## The null router -/

/-- Embeds `RaftStoreBlackHole`: the unit null router. -/
structure RaftStoreBlackHole where
deriving DecidableEq, Repr

namespace RaftStoreBlackHole

/-- Embeds `CasualRouter::send` for the black hole. -/
def casual_send (_ : RaftStoreBlackHole) (_ : Nat) (_ : CasualMessage) :
    RaftStoreResult := Except.ok ()

/-- Embeds `ProposalRouter::send` for the black hole. -/
def proposal_send (_ : RaftStoreBlackHole) (_ : RaftCommand) :
    RaftStoreResult := Except.ok ()

/-- Embeds `StoreRouter::send` for the black hole. -/
def store_send (_ : RaftStoreBlackHole) (_ : StoreMsg) : Unit := ()

/-- Embeds `RaftStoreRouter::send_raft_msg` for the black hole. -/
def send_raft_msg (_ : RaftStoreBlackHole) (_ : RaftMessage) :
    RaftStoreResult := Except.ok ()

/-- Embeds `RaftStoreRouter::significant_send` for the black hole. -/
def significant_send (_ : RaftStoreBlackHole) (_ : Nat) (_ : SignificantMsg) :
    RaftStoreResult := Except.ok ()

/-- Embeds `RaftStoreRouter::broadcast_normal` for the black hole: the
generator is never invoked (its state is returned untouched). -/
def broadcast_normal {σ : Type} (_ : RaftStoreBlackHole) (_ : σ → PeerMsg × σ) (s : σ) :
    σ := s

end RaftStoreBlackHole


/-! ## Operation traces

The router's public operations as a syntactic type, used to state
temporal properties over whole histories, and the key invariant of the
table. -/

/-- One public router operation. -/
inductive RouterOp where
  | register (p : PeerFsm)
  | close (id : Nat)
  | send (id : Nat) (msg : PeerMsg)
  | send_store (msg : StoreMsg)
  | broadcast (f : Nat → PeerMsg)
  | significant_send (id : Nat) (msg : SignificantMsg)
  | send_raft_msg (msg : RaftMessage)
  | proposal_send (cmd : RaftCommand)

/-- Run one operation, keeping only the router state. -/
def applyOp (r : RaftRouter) : RouterOp → RaftRouter
  | RouterOp.register p => r.register p
  | RouterOp.close id => r.close id
  | RouterOp.send id m => (r.send id m).snd
  | RouterOp.send_store m => r.send_store m
  | RouterOp.broadcast f => (r.broadcast_normal (fun k => (f k, k + 1)) 0).fst
  | RouterOp.significant_send id m => (r.significant_send id m).snd
  | RouterOp.send_raft_msg m => (r.send_raft_msg m).snd
  | RouterOp.proposal_send c => (r.proposal_send c).snd

/-- Run a history of operations, oldest first. -/
def applyOps (r : RaftRouter) (ops : List RouterOp) : RaftRouter :=
  ops.foldl applyOp r

/-- Does the operation register a peer for region `id`? -/
def registersRegion (id : Nat) : RouterOp → Bool
  | RouterOp.register p => p.peer.region.id == id
  | _ => false

/-- Key invariant of the routing table: every entry's stored peer carries
the region identifier the entry is keyed under. -/
def peersInv (ps : List (Nat × PeerStates)) : Prop :=
  ∀ e ∈ ps, e.snd.peer_fsm.peer.region.id = e.fst

/-- Routers reachable from a fresh router by the public operations. -/
inductive Reachable : RaftRouter → Prop where
  | new (peer_sender : List (Nat × PeerMsg)) (store_sender : List StoreMsg) :
      Reachable (RaftRouter.new peer_sender store_sender)
  | step (r : RaftRouter) (op : RouterOp) : Reachable r → Reachable (applyOp r op)

/-! ## Basic lemmas about the table and the send fast path -/

theorem peersGet_insert_self (ps : List (Nat × PeerStates)) (id : Nat) (v : PeerStates) :
    peersGet (peersInsert ps id v) id = some v := by
  simp [peersGet, peersInsert, List.find?]

theorem send_absent (r : RaftRouter) (id : Nat) (msg : PeerMsg)
    (h : peersGet r.peers id = none) :
    r.send id msg = (Except.error (RaftStoreError.RegionNotFound id (some msg)), r) := by
  simp [RaftRouter.send, h]

/-- C1: `RaftRouter::send` enqueues `(region_id, message)` on the shared
per-region channel and returns `Ok` exactly when the table holds an entry
for the identifier whose closed flag is unset; otherwise (absent entry,
or closed flag set) it returns `RegionNotFound(region_id, Some(message))`
with the message unmodified and the router state untouched. -/
theorem send_ok_iff_open_entry (r : RaftRouter) (id : Nat) (msg : PeerMsg) :
    (∃ st, peersGet r.peers id = some st ∧ st.closed = false ∧
       r.send id msg = (Except.ok (),
         { r with peer_sender := r.peer_sender ++ [(id, msg)] })) ∨
    ((peersGet r.peers id = none ∨
       ∃ st, peersGet r.peers id = some st ∧ st.closed = true) ∧
     r.send id msg = (Except.error (RaftStoreError.RegionNotFound id (some msg)), r)) := by
  cases h : peersGet r.peers id with
  | none =>
      refine Or.inr ⟨Or.inl rfl, ?_⟩
      simp [RaftRouter.send, h]
  | some st =>
      cases hc : st.closed with
      | false =>
          refine Or.inl ⟨st, rfl, hc, ?_⟩
          simp [RaftRouter.send, h, hc]
      | true =>
          refine Or.inr ⟨Or.inr ⟨st, rfl, hc⟩, ?_⟩
          simp [RaftRouter.send, h, hc]

/-- C3: `RaftRouter::significant_send` either enqueues the message,
wrapped as a peer message, on the target region's channel and returns
`Ok`, or returns `RegionNotFound` carrying that wrapped message with the
state untouched; it never discards the message silently. -/
theorem significant_send_total (r : RaftRouter) (id : Nat) (m : SignificantMsg) :
    r.significant_send id m = (Except.ok (),
      { r with peer_sender := r.peer_sender ++ [(id, PeerMsg.SignificantMsg m)] }) ∨
    r.significant_send id m =
      (Except.error (RaftStoreError.RegionNotFound id (some (PeerMsg.SignificantMsg m))),
       r) := by
  cases h : peersGet r.peers id with
  | none =>
      right
      simp [RaftRouter.significant_send, RaftRouter.send, h]
  | some st =>
      cases hc : st.closed with
      | false =>
          left
          simp [RaftRouter.significant_send, RaftRouter.send, h, hc]
      | true =>
          right
          simp [RaftRouter.significant_send, RaftRouter.send, h, hc]

/-- C4: `send_command_with_deadline` does NOT attach the supplied
deadline to the forwarded `RaftCommand` (`send_command_impl` ignores its
deadline argument, `// TODO(x) handle deadline`): on a freshly registered
region 1, sending request 42 with callback 9 and deadline 5 succeeds, but
the command delivered to the channel carries no deadline — for every
deadline value, the channel content differs from what delivering a
deadline-carrying command would produce. -/
theorem send_command_deadline_dropped :
    (((RaftRouter.new [] []).register ⟨⟨⟨1, ⟨0⟩⟩, 10⟩⟩).send_command_with_deadline
        ⟨1, 42⟩ ⟨9⟩ ⟨5⟩).fst = Except.ok () ∧
    (((RaftRouter.new [] []).register ⟨⟨⟨1, ⟨0⟩⟩, 10⟩⟩).send_command_with_deadline
        ⟨1, 42⟩ ⟨9⟩ ⟨5⟩).snd.peer_sender =
      [(1, PeerMsg.RaftCommand ⟨⟨1, 42⟩, ⟨9⟩, none⟩)] ∧
    ∀ dl : Deadline,
      (((RaftRouter.new [] []).register ⟨⟨⟨1, ⟨0⟩⟩, 10⟩⟩).send_command_with_deadline
          ⟨1, 42⟩ ⟨9⟩ ⟨5⟩).snd.peer_sender ≠
        [(1, PeerMsg.RaftCommand ⟨⟨1, 42⟩, ⟨9⟩, some dl⟩)] := by
  refine ⟨rfl, rfl, ?_⟩
  intro dl h
  have h0 : (((RaftRouter.new [] []).register ⟨⟨⟨1, ⟨0⟩⟩, 10⟩⟩).send_command_with_deadline
      ⟨1, 42⟩ ⟨9⟩ ⟨5⟩).snd.peer_sender =
      [(1, PeerMsg.RaftCommand ⟨⟨1, 42⟩, ⟨9⟩, none⟩)] := rfl
  rw [h0] at h
  simp at h

/-- C6: `register(peer)` inserts, keyed by the peer's region identifier,
the per-region state built from the peer and its derived applier with a
fresh open liveness flag; a send to that identifier performed right after
registration succeeds and appends the message exactly once to the shared
channel. -/
theorem register_fresh_open_and_send_ok (r : RaftRouter) (p : PeerFsm) (msg : PeerMsg) :
    peersGet (r.register p).peers p.peer.region.id =
      some (PeerStates.new (Applier.new_from_peer p) p) ∧
    (PeerStates.new (Applier.new_from_peer p) p).closed = false ∧
    (r.register p).send p.peer.region.id msg =
      (Except.ok (), { r.register p with
        peer_sender := (r.register p).peer_sender ++ [(p.peer.region.id, msg)] }) := by
  have hget : peersGet (r.register p).peers p.peer.region.id =
      some (PeerStates.new (Applier.new_from_peer p) p) := by
    simp [RaftRouter.register]
    exact peersGet_insert_self _ _ _
  refine ⟨hget, rfl, ?_⟩
  simp [RaftRouter.send, hget, PeerStates.new]

/-- C8: `close` of a region identifier that is absent from the routing
table is a no-op: the router (table, both channels) is left exactly as it
was. -/
theorem close_unregistered_noop (r : RaftRouter) (id : Nat)
    (h : peersGet r.peers id = none) : r.close id = r := by
  simp [RaftRouter.close, h]

/-- Witness for C8: close region 5, never registered, on a router holding
region 7; nothing changes. -/
theorem close_unregistered_noop_witness :
    peersGet ((RaftRouter.new [] []).register ⟨⟨⟨7, ⟨1⟩⟩, 70⟩⟩).peers 5 = none ∧
    ((RaftRouter.new [] []).register ⟨⟨⟨7, ⟨1⟩⟩, 70⟩⟩).close 5 =
      (RaftRouter.new [] []).register ⟨⟨⟨7, ⟨1⟩⟩, 70⟩⟩ :=
  ⟨rfl, close_unregistered_noop ((RaftRouter.new [] []).register ⟨⟨⟨7, ⟨1⟩⟩, 70⟩⟩)
    5 rfl⟩

/-- C9: every capability operation of the null router
`RaftStoreBlackHole` returns success (`Ok` or unit) on every input, and
performs no work: nothing is enqueued anywhere and the broadcast never
invokes its generator (the generator state comes back untouched). -/
theorem black_hole_all_noop :
    ∀ (b : RaftStoreBlackHole) (id : Nat) (cm : CasualMessage) (cmd : RaftCommand)
      (sm : StoreMsg) (rm : RaftMessage) (sg : SignificantMsg) (σ : Type)
      (gen : σ → PeerMsg × σ) (s : σ),
      b.casual_send id cm = Except.ok () ∧
      b.proposal_send cmd = Except.ok () ∧
      b.store_send sm = () ∧
      b.send_raft_msg rm = Except.ok () ∧
      b.significant_send id sg = Except.ok () ∧
      b.broadcast_normal gen s = s :=
  fun _ _ _ _ _ _ _ _ _ _ => ⟨rfl, rfl, rfl, rfl, rfl, rfl⟩

/-! ## Table lemmas -/

theorem peersGet_eq_none_iff (ps : List (Nat × PeerStates)) (id : Nat) :
    peersGet ps id = none ↔ ∀ e ∈ ps, e.fst ≠ id := by
  simp [peersGet, List.find?_eq_none]

theorem peersGet_some_elim (ps : List (Nat × PeerStates)) (id : Nat) (st : PeerStates)
    (h : peersGet ps id = some st) : (id, st) ∈ ps := by
  unfold peersGet at h
  cases hf : ps.find? (fun e => e.fst == id) with
  | none => rw [hf] at h; exact absurd h (by simp)
  | some e =>
      rw [hf] at h
      have hmem := List.mem_of_find?_eq_some hf
      have hp := List.find?_some hf
      have h1 : e.fst = id := by simpa using hp
      have h2 : e.snd = st := by simpa using h
      have he : e = (id, st) := by cases e; simp_all
      rwa [he] at hmem

theorem send_peers_eq (r : RaftRouter) (id : Nat) (m : PeerMsg) :
    (r.send id m).snd.peers = r.peers := by
  cases hg : peersGet r.peers id with
  | none => simp [RaftRouter.send, hg]
  | some st =>
      cases hc : st.closed with
      | false => simp [RaftRouter.send, hg, hc]
      | true => simp [RaftRouter.send, hg, hc]

theorem peersInv_remove (ps : List (Nat × PeerStates)) (id : Nat)
    (h : peersInv ps) : peersInv (peersRemove ps id) :=
  fun e he => h e (List.mem_of_mem_filter he)

theorem peersInv_setClosed (ps : List (Nat × PeerStates)) (id : Nat)
    (h : peersInv ps) : peersInv (peersSetClosed ps id) := by
  intro e he
  obtain ⟨a, ha, hae⟩ := List.mem_map.mp he
  have hinv := h a ha
  by_cases hk : (a.fst == id) = true
  · rw [if_pos hk] at hae
    rw [← hae]
    exact hinv
  · rw [if_neg hk] at hae
    rw [← hae]
    exact hinv

theorem applyOp_peers_inv (r : RaftRouter) (op : RouterOp) (h : peersInv r.peers) :
    peersInv (applyOp r op).peers := by
  cases op with
  | register p =>
      show peersInv (r.register p).peers
      intro e he
      rcases List.mem_cons.mp he with he | he
      · subst he; rfl
      · exact h e (List.mem_of_mem_filter he)
  | close id =>
      show peersInv (r.close id).peers
      unfold RaftRouter.close
      cases hg : peersGet r.peers id with
      | none => exact h
      | some st => exact peersInv_remove _ _ (peersInv_setClosed _ _ h)
  | send id m =>
      show peersInv (r.send id m).snd.peers
      rw [send_peers_eq]; exact h
  | send_store m => exact h
  | broadcast f => exact h
  | significant_send id m =>
      show peersInv (r.send id (PeerMsg.SignificantMsg m)).snd.peers
      rw [send_peers_eq]; exact h
  | send_raft_msg m =>
      show peersInv (r.send m.region_id (PeerMsg.RaftMessage m)).snd.peers
      rw [send_peers_eq]; exact h
  | proposal_send c =>
      show peersInv (r.send c.request.region_id (PeerMsg.RaftCommand c)).snd.peers
      rw [send_peers_eq]; exact h

theorem applyOps_peers_inv (ops : List RouterOp) :
    ∀ r : RaftRouter, peersInv r.peers → peersInv (applyOps r ops).peers := by
  induction ops with
  | nil => intro r h; exact h
  | cons op rest ih => intro r h; exact ih _ (applyOp_peers_inv r op h)

theorem reachable_peersInv (r : RaftRouter) (hr : Reachable r) : peersInv r.peers := by
  induction hr with
  | new ps ss => intro e he; exact absurd he (List.not_mem_nil e)
  | step r op _ ih => exact applyOp_peers_inv r op ih

theorem close_then_absent (r : RaftRouter) (id : Nat) (h : peersInv r.peers) :
    peersGet (r.close id).peers id = none := by
  unfold RaftRouter.close
  cases hg : peersGet r.peers id with
  | none => exact hg
  | some st =>
      have hmem := peersGet_some_elim _ _ _ hg
      have hst : st.peer_fsm.peer.region.id = id := h _ hmem
      rw [peersGet_eq_none_iff]
      intro e he
      have he' : e ∈ peersSetClosed r.peers id ∧ (e.fst != st.peer_fsm.peer.region_id) = true :=
        List.mem_filter.mp he
      have : e.fst ≠ st.peer_fsm.peer.region.id := by simpa [Peer.region_id] using he'.2
      rwa [hst] at this

theorem absent_applyOp (r : RaftRouter) (id : Nat) (op : RouterOp)
    (h : peersGet r.peers id = none) (hop : registersRegion id op = false) :
    peersGet (applyOp r op).peers id = none := by
  cases op with
  | register p =>
      have hne : p.peer.region.id ≠ id := by
        simpa [registersRegion] using hop
      show peersGet (r.register p).peers id = none
      rw [peersGet_eq_none_iff] at h ⊢
      intro e he
      rcases List.mem_cons.mp he with he | he
      · rw [he]; exact hne
      · exact h e (List.mem_of_mem_filter he)
  | close cid =>
      show peersGet (r.close cid).peers id = none
      unfold RaftRouter.close
      cases hg : peersGet r.peers cid with
      | none => exact h
      | some st =>
          rw [peersGet_eq_none_iff] at h ⊢
          intro e he
          have he1 : e ∈ peersSetClosed r.peers cid := (List.mem_filter.mp he).1
          obtain ⟨a, ha, hae⟩ := List.mem_map.mp he1
          have hfst : e.fst = a.fst := by
            by_cases hk : (a.fst == cid) = true
            · rw [if_pos hk] at hae; rw [← hae]
            · rw [if_neg hk] at hae; rw [← hae]
          rw [hfst]
          exact h a ha
  | send sid m =>
      show peersGet (r.send sid m).snd.peers id = none
      rw [send_peers_eq]; exact h
  | send_store m => exact h
  | broadcast f => exact h
  | significant_send sid m =>
      show peersGet (r.send sid (PeerMsg.SignificantMsg m)).snd.peers id = none
      rw [send_peers_eq]; exact h
  | send_raft_msg m =>
      show peersGet (r.send m.region_id (PeerMsg.RaftMessage m)).snd.peers id = none
      rw [send_peers_eq]; exact h
  | proposal_send c =>
      show peersGet (r.send c.request.region_id (PeerMsg.RaftCommand c)).snd.peers id = none
      rw [send_peers_eq]; exact h

theorem absent_applyOps (ops : List RouterOp) (id : Nat) :
    ∀ r : RaftRouter, peersGet r.peers id = none →
      (∀ op ∈ ops, registersRegion id op = false) →
      peersGet (applyOps r ops).peers id = none := by
  induction ops with
  | nil => intro r h _; exact h
  | cons op rest ih =>
      intro r h hops
      exact ih _ (absent_applyOp r id op h (hops op (List.mem_cons_self op rest)))
        (fun o ho => hops o (List.mem_cons_of_mem _ ho))

/-- C2: after a region has been registered (with any history in between)
and then closed, every send for that region performed after the close,
with no intervening re-registration of the region, fails with
`RegionNotFound` and changes nothing. -/
theorem send_after_close_fails (r : RaftRouter) (p : PeerFsm)
    (mid post : List RouterOp) (msg : PeerMsg)
    (hinv : peersInv r.peers)
    (hpost : ∀ op ∈ post, registersRegion p.peer.region.id op = false) :
    (applyOps ((applyOps (r.register p) mid).close p.peer.region.id) post).send
        p.peer.region.id msg =
      (Except.error (RaftStoreError.RegionNotFound p.peer.region.id (some msg)),
       applyOps ((applyOps (r.register p) mid).close p.peer.region.id) post) := by
  have h1 : peersInv (r.register p).peers :=
    applyOp_peers_inv r (RouterOp.register p) hinv
  have h2 : peersInv (applyOps (r.register p) mid).peers := applyOps_peers_inv mid _ h1
  have h3 : peersGet ((applyOps (r.register p) mid).close p.peer.region.id).peers
      p.peer.region.id = none := close_then_absent _ _ h2
  have h4 : peersGet (applyOps ((applyOps (r.register p) mid).close p.peer.region.id)
      post).peers p.peer.region.id = none := absent_applyOps post _ _ h3 hpost
  exact send_absent _ _ msg h4

/-- Witness for C2: register region 2 on a fresh router, close it, run an
unrelated send, then send to region 2: `RegionNotFound`. -/
theorem send_after_close_fails_witness :
    peersInv (RaftRouter.new [] []).peers ∧
    (∀ op ∈ [RouterOp.send 9 (PeerMsg.CasualMessage ⟨1⟩)], registersRegion 2 op = false) ∧
    (applyOps ((applyOps ((RaftRouter.new [] []).register ⟨⟨⟨2, ⟨0⟩⟩, 20⟩⟩) []).close 2)
        [RouterOp.send 9 (PeerMsg.CasualMessage ⟨1⟩)]).send 2 (PeerMsg.CasualMessage ⟨0⟩) =
      (Except.error (RaftStoreError.RegionNotFound 2 (some (PeerMsg.CasualMessage ⟨0⟩))),
       applyOps ((applyOps ((RaftRouter.new [] []).register ⟨⟨⟨2, ⟨0⟩⟩, 20⟩⟩) []).close 2)
        [RouterOp.send 9 (PeerMsg.CasualMessage ⟨1⟩)]) := by
  have hinv : peersInv (RaftRouter.new [] []).peers :=
    fun e he => absurd he (List.not_mem_nil e)
  have hpost : ∀ op ∈ [RouterOp.send 9 (PeerMsg.CasualMessage ⟨1⟩)],
      registersRegion 2 op = false := by
    intro op hop
    rw [List.mem_singleton] at hop
    subst hop
    rfl
  exact ⟨hinv, hpost,
    send_after_close_fails (RaftRouter.new [] []) ⟨⟨⟨2, ⟨0⟩⟩, 20⟩⟩ []
      [RouterOp.send 9 (PeerMsg.CasualMessage ⟨1⟩)] (PeerMsg.CasualMessage ⟨0⟩) hinv hpost⟩

theorem peersRemove_setClosed (ps : List (Nat × PeerStates)) (id : Nat) :
    peersRemove (peersSetClosed ps id) id = peersRemove ps id := by
  induction ps with
  | nil => rfl
  | cons e rest ih =>
      by_cases hk : (e.fst == id) = true
      · have hne : (e.fst != id) = false := by simp [bne]; simpa using hk
        simp only [peersSetClosed, peersRemove, List.map_cons, List.filter_cons,
          if_pos hk] at *
        simpa [hne] using ih
      · have hne : (e.fst != id) = true := by simp [bne]; simpa using hk
        simp only [peersSetClosed, peersRemove, List.map_cons, List.filter_cons,
          if_neg hk] at *
        simpa [hne] using ih

/-- C7: on every router reachable by the public operations, the region
identifier stored inside an entry's peer fsm equals the key the entry is
stored under; consequently `close(id)`, although it re-derives the
identifier from the stored peer data, removes exactly the entry keyed by
the caller-supplied `id` — it behaves as removal by the caller-supplied
identifier (and touches nothing else). -/
theorem close_removes_caller_key (r : RaftRouter) (hr : Reachable r) (id : Nat) :
    peersInv r.peers ∧
    r.close id = { r with peers := peersRemove r.peers id } := by
  have hinv : peersInv r.peers := reachable_peersInv r hr
  refine ⟨hinv, ?_⟩
  unfold RaftRouter.close
  cases hg : peersGet r.peers id with
  | none =>
      have hrm : peersRemove r.peers id = r.peers := by
        rw [peersGet_eq_none_iff] at hg
        unfold peersRemove
        rw [List.filter_eq_self]
        intro e he
        simpa using hg e he
      rw [hrm]
  | some st =>
      have hmem := peersGet_some_elim _ _ _ hg
      have hst : st.peer_fsm.peer.region.id = id := hinv _ hmem
      have hps : peersRemove (peersSetClosed r.peers id) st.peer_fsm.peer.region_id =
          peersRemove r.peers id := by
        have hreg : st.peer_fsm.peer.region_id = id := hst
        rw [hreg, peersRemove_setClosed]
      exact congrArg (fun ps => { r with peers := ps }) hps

/-- Witness for C7: a router with region 7 registered is reachable; the
invariant holds and `close 7` is exactly removal of key 7. -/
theorem close_removes_caller_key_witness :
    Reachable ((RaftRouter.new [] []).register ⟨⟨⟨7, ⟨1⟩⟩, 70⟩⟩) ∧
    (peersInv ((RaftRouter.new [] []).register ⟨⟨⟨7, ⟨1⟩⟩, 70⟩⟩).peers ∧
     ((RaftRouter.new [] []).register ⟨⟨⟨7, ⟨1⟩⟩, 70⟩⟩).close 7 =
       { (RaftRouter.new [] []).register ⟨⟨⟨7, ⟨1⟩⟩, 70⟩⟩ with
         peers := peersRemove ((RaftRouter.new [] []).register ⟨⟨⟨7, ⟨1⟩⟩, 70⟩⟩).peers 7 }) :=
  have hr : Reachable ((RaftRouter.new [] []).register ⟨⟨⟨7, ⟨1⟩⟩, 70⟩⟩) :=
    Reachable.step (RaftRouter.new [] []) (RouterOp.register ⟨⟨⟨7, ⟨1⟩⟩, 70⟩⟩)
      (Reachable.new [] [])
  ⟨hr, close_removes_caller_key ((RaftRouter.new [] []).register ⟨⟨⟨7, ⟨1⟩⟩, 70⟩⟩) hr 7⟩

/-! ## Broadcast lemmas -/

theorem broadcastGo_counting (f : Nat → PeerMsg) :
    ∀ (ps : List (Nat × PeerStates)) (sent : List (Nat × PeerMsg)) (n : Nat),
      RaftRouter.broadcastGo (fun k => (f k, k + 1)) ps sent n =
        (sent ++ (ps.map Prod.fst).zip ((List.range' n ps.length).map f),
         n + ps.length) := by
  intro ps
  induction ps with
  | nil => intro sent n; simp [RaftRouter.broadcastGo]
  | cons e rest ih =>
      intro sent n
      have hstep : RaftRouter.broadcastGo (fun k => (f k, k + 1)) (e :: rest) sent n =
          RaftRouter.broadcastGo (fun k => (f k, k + 1)) rest
            (sent ++ [(e.fst, f n)]) (n + 1) := rfl
      rw [hstep, ih]
      simp only [Prod.mk.injEq]
      constructor
      · simp only [List.length_cons, List.map_cons, List.range'_succ, List.zip_cons_cons]
        simp [List.append_assoc]
      · simp only [List.length_cons]
        omega

theorem mem_zip_of_mem_left {α β : Type} (a : α) :
    ∀ (l : List α) (l' : List β), a ∈ l → l.length = l'.length →
      ∃ b, (a, b) ∈ l.zip l' := by
  intro l
  induction l with
  | nil => intro l' h _; exact absurd h (List.not_mem_nil a)
  | cons x xs ih =>
      intro l' h hl
      cases l' with
      | nil => simp at hl
      | cons y ys =>
          rcases List.mem_cons.mp h with h | h
          · exact ⟨y, by simp [h]⟩
          · obtain ⟨b, hb⟩ := ih ys h (by simpa using hl)
            exact ⟨b, List.mem_cons_of_mem _ hb⟩

/-- C5: on a table holding `n` regions, `broadcast_normal` invokes the
generator exactly `n` times (a counting generator ends at `n`), leaves
the table and store channel alone, and appends to the shared channel
exactly the registered region identifiers, in table order, each paired
with the message produced by its own generator invocation. -/
theorem broadcast_normal_once_per_region (r : RaftRouter) (f : Nat → PeerMsg) :
    (r.broadcast_normal (fun k => (f k, k + 1)) 0).snd = r.peers.length ∧
    (r.broadcast_normal (fun k => (f k, k + 1)) 0).fst.peers = r.peers ∧
    (r.broadcast_normal (fun k => (f k, k + 1)) 0).fst.store_sender = r.store_sender ∧
    (r.broadcast_normal (fun k => (f k, k + 1)) 0).fst.peer_sender =
      r.peer_sender ++
        (r.peers.map Prod.fst).zip ((List.range r.peers.length).map f) := by
  have h := broadcastGo_counting f r.peers r.peer_sender 0
  refine ⟨?_, rfl, rfl, ?_⟩
  · show (RaftRouter.broadcastGo (fun k => (f k, k + 1)) r.peers r.peer_sender 0).snd =
      r.peers.length
    rw [h]
    simp
  · show (RaftRouter.broadcastGo (fun k => (f k, k + 1)) r.peers r.peer_sender 0).fst =
      r.peer_sender ++ (r.peers.map Prod.fst).zip ((List.range r.peers.length).map f)
    rw [h, List.range_eq_range']

/-- C10: `broadcast_normal` never consults the liveness flag: a region
whose entry is still in the table with the closed flag set still receives
a broadcast-originated message, even though a per-region `send` for the
same region is rejected with `RegionNotFound`. -/
theorem broadcast_reaches_closed_entry (r : RaftRouter) (f : Nat → PeerMsg) (id : Nat)
    (st : PeerStates) (h : peersGet r.peers id = some st) (hc : st.closed = true)
    (m : PeerMsg) :
    (∃ msg, (id, msg) ∈
      ((r.broadcast_normal (fun k => (f k, k + 1)) 0).fst.peer_sender.drop
        r.peer_sender.length)) ∧
    r.send id m = (Except.error (RaftStoreError.RegionNotFound id (some m)), r) := by
  constructor
  · have hb := broadcastGo_counting f r.peers r.peer_sender 0
    have hps : (r.broadcast_normal (fun k => (f k, k + 1)) 0).fst.peer_sender =
        r.peer_sender ++
          (r.peers.map Prod.fst).zip ((List.range' 0 r.peers.length).map f) := by
      show (RaftRouter.broadcastGo (fun k => (f k, k + 1)) r.peers r.peer_sender 0).fst =
        r.peer_sender ++ (r.peers.map Prod.fst).zip ((List.range' 0 r.peers.length).map f)
      rw [hb]
    rw [hps, List.drop_left]
    have hkey : id ∈ r.peers.map Prod.fst :=
      List.mem_map_of_mem Prod.fst (peersGet_some_elim _ _ _ h)
    exact mem_zip_of_mem_left id _ _ hkey (by simp)
  · simp [RaftRouter.send, h, hc]

/-- Witness for C10: a table holding a closed entry for region 3;
broadcast still delivers to region 3 while a direct send fails. -/
theorem broadcast_reaches_closed_entry_witness :
    (peersGet (RaftRouter.mk [] [(3, ⟨true, ⟨⟨⟨3, ⟨0⟩⟩, 30⟩⟩, ⟨3⟩⟩)] []).peers 3 =
      some ⟨true, ⟨⟨⟨3, ⟨0⟩⟩, 30⟩⟩, ⟨3⟩⟩) ∧
    (PeerStates.closed ⟨true, ⟨⟨⟨3, ⟨0⟩⟩, 30⟩⟩, ⟨3⟩⟩ = true) ∧
    ((∃ msg, (3, msg) ∈
        (((RaftRouter.mk [] [(3, ⟨true, ⟨⟨⟨3, ⟨0⟩⟩, 30⟩⟩, ⟨3⟩⟩)] []).broadcast_normal
            (fun k => (PeerMsg.CasualMessage ⟨k⟩, k + 1)) 0).fst.peer_sender.drop
          (RaftRouter.mk [] [(3, ⟨true, ⟨⟨⟨3, ⟨0⟩⟩, 30⟩⟩, ⟨3⟩⟩)] []).peer_sender.length)) ∧
     (RaftRouter.mk [] [(3, ⟨true, ⟨⟨⟨3, ⟨0⟩⟩, 30⟩⟩, ⟨3⟩⟩)] []).send 3
        (PeerMsg.CasualMessage ⟨0⟩) =
      (Except.error (RaftStoreError.RegionNotFound 3 (some (PeerMsg.CasualMessage ⟨0⟩))),
       RaftRouter.mk [] [(3, ⟨true, ⟨⟨⟨3, ⟨0⟩⟩, 30⟩⟩, ⟨3⟩⟩)] [])) :=
  ⟨rfl, rfl,
   broadcast_reaches_closed_entry (RaftRouter.mk [] [(3, ⟨true, ⟨⟨⟨3, ⟨0⟩⟩, 30⟩⟩, ⟨3⟩⟩)] [])
     (fun k => PeerMsg.CasualMessage ⟨k⟩) 3 ⟨true, ⟨⟨⟨3, ⟨0⟩⟩, 30⟩⟩, ⟨3⟩⟩ rfl rfl
     (PeerMsg.CasualMessage ⟨0⟩)⟩
